import Mathlib

/-!
Shallow embedding of the spellcheck_poc repository (src/main.py, the EDA
framework under src/backend/handlers/, and the provider layer under
src/backend/spellcheckers/), together with theorems settling the frozen
claims about it.

Conventions of the embedding:
* Python strings are Lean `String`s; indices are code-point indices, which
  coincide with Python string indices.
* The SQLite database behind src/main.py is an explicit `DBState` record;
  each async DB-touching function becomes a state-passing function.
* `json.dumps` of an error list is modelled by `errorsToJson`; the
  `errors_json` column stores the structured list (the JSON text is the
  image of `errorsToJson`, which is what the SQL LIKE patterns inspect).
* SQLite `LIKE` is ASCII-case-insensitive by default; `likeContains`
  models `column LIKE '%pat%'` accordingly.
* Third-party checker engines (pyspellchecker / hunspell dictionaries)
  are abstracted as function-valued records: the repository treats them
  as opaque capability providers.
-/

namespace SpellcheckPoc

/-! ## String primitives (Python `str` / SQLite semantics) -/

/-- ASCII lower-casing of one character. Models Python `str.lower()` and the
SQLite `LIKE` case-folding on the ASCII range (the range both agree on). -/
def asciiLowerChar (c : Char) : Char :=
  if 'A' ≤ c ∧ c ≤ 'Z' then Char.ofNat (c.toNat + 32) else c

/-- Python `s.lower()` modelled as ASCII folding. Faithful exactly on
ASCII strings; theorems whose meaning depends on lower-casing an
arbitrary user-supplied word therefore carry an ASCII hypothesis
(`asciiOnly`/`asciiClean` below). -/
def strLower (s : String) : String := String.mk (s.toList.map asciiLowerChar)

/-- A regex `\w` character: alphanumeric or underscore. -/
def isWordChar (c : Char) : Bool := c.isAlphanum || c == '_'

/-- `charsStartWith s sub`: `sub` is a prefix of `s`. -/
def charsStartWith : List Char → List Char → Bool
  | _, [] => true
  | [], _ :: _ => false
  | a :: as, b :: bs => a == b && charsStartWith as bs

/-- `charsContains s sub`: `sub` occurs as a contiguous substring of `s`. -/
def charsContains : List Char → List Char → Bool
  | [], sub => sub.isEmpty
  | s@(_ :: t), sub => charsStartWith s sub || charsContains t sub

/-- Literal (case-sensitive) substring containment on strings. -/
def strContains (s sub : String) : Bool := charsContains s.toList sub.toList

/-- SQLite `LIKE` pattern matching with its default (ASCII
case-insensitive) collation: `%` in the pattern matches any run of
characters, `_` any single character, and any other pattern character
matches up to ASCII case. Structural recursion on the pattern; the `%`
case tries every split of the remaining string. -/
def likeMatch : List Char → List Char → Bool
  | [], s => s.isEmpty
  | p :: ps, s =>
    if p = '%' then
      (List.range (s.length + 1)).any (fun k => likeMatch ps (s.drop k))
    else
      match s with
      | [] => false
      | c :: t => ((p == '_') || (asciiLowerChar p == asciiLowerChar c)) && likeMatch ps t

/-- `column LIKE '%' || pat || '%'` under SQLite semantics (`pat` keeps
its wildcard characters, exactly as the f-string patterns in src/main.py
do). -/
def likeContains (s pat : String) : Bool :=
  likeMatch ('%' :: (pat.data ++ ['%'])) s.data

/-- Index of the first occurrence of `sub` in `s`, if any. -/
def findSubIdx : List Char → List Char → Option Nat
  | [], sub => if sub.isEmpty then some 0 else none
  | s@(_ :: t), sub =>
    if charsStartWith s sub then some 0 else (findSubIdx t sub).map (· + 1)

/-- Python `s.find(sub, start)`: least index `≥ start` at which `sub`
occurs, `none` when Python would return `-1`. -/
def strFindFrom (s sub : String) (start : Nat) : Option Nat :=
  (findSubIdx (s.toList.drop start) sub.toList).map (· + start)

/-- Python slice `s[a:b]` (for `a ≤ b`). -/
def pySlice (s : String) (a b : Nat) : String :=
  String.mk ((s.toList.drop a).take (b - a))

/-- Python's blank test `not s.strip()`: true iff every character of `s`
is whitespace (so stripping leaves the empty string). -/
def pyStripEmpty (s : String) : Bool := s.data.all Char.isWhitespace

/-- Worker for `wordRuns`: `i` is the index of the head of the remaining
list, `start` the start index of the run accumulated (reversed) in `acc`. -/
def wordRunsGo : List Char → Nat → Nat → List Char → List (String × Nat × Nat)
  | [], i, start, acc =>
    if acc.isEmpty then [] else [(String.mk acc.reverse, start, i)]
  | c :: rest, i, start, acc =>
    if isWordChar c then
      if acc.isEmpty then wordRunsGo rest (i + 1) i [c]
      else wordRunsGo rest (i + 1) start (c :: acc)
    else if acc.isEmpty then wordRunsGo rest (i + 1) start acc
    else (String.mk acc.reverse, start, i) :: wordRunsGo rest (i + 1) (i + 1) []

/-- `re.finditer(r'\b\w+\b', s)`: maximal word-character runs with their
`(text, start, end)` spans. -/
def wordRuns (s : String) : List (String × Nat × Nat) := wordRunsGo s.toList 0 0 []

/-- `re.findall(r'\b\w+\b', s)`: the word tokens of `s`, in order. -/
def findWords (s : String) : List String := (wordRuns s).map (·.1)

/-! ## Data model of src/main.py -/

/-- One spelling error as produced by `spell_check_line`
(src/main.py lines 228-233). -/
structure SpellError where
  word : String
  start_pos : Nat
  end_pos : Nat
  suggestions : List String
deriving Repr, DecidableEq

/-- One row of the `spell_cache` table. The `errors` field holds the
structured value whose `json.dumps` image is the `errors_json` column;
`errorsToJson` below recovers the stored text where SQL inspects it.
Timestamps are modelled by a logical clock. -/
structure CacheEntry where
  line_hash : String
  line_text : String
  errors : Option (List SpellError)
  language : String
  last_used : Nat
deriving Repr, DecidableEq

/-- The SQLite database state used by src/main.py: the `spell_cache` and
`user_dictionary` tables, the `user_settings` table, and a logical clock
supplying CURRENT_TIMESTAMP values. -/
structure DBState where
  spell_cache : List CacheEntry
  user_dictionary : List String
  settings : List (String × String)
  now : Nat
deriving Repr, DecidableEq

/-- A lowercase hexadecimal digit, as Python's JSON encoder emits. -/
def hexDigit (n : Nat) : Char :=
  if n < 10 then Char.ofNat (48 + n) else Char.ofNat (87 + n)

/-- A JSON `\uXXXX` escape for a 16-bit code unit. -/
def uEscape (n : Nat) : List Char :=
  ['\\', 'u', hexDigit (n / 4096 % 16), hexDigit (n / 256 % 16),
   hexDigit (n / 16 % 16), hexDigit (n % 16)]

/-- `json.dumps` escaping of one character under the default
`ensure_ascii=True`: two-character escapes for quote, backslash and the
named control characters, `\uXXXX` for the remaining control characters
and for every character above `~` (0x7E), astral characters as a UTF-16
surrogate pair. Only characters in 0x20..0x7E other than quote and
backslash pass through unchanged. -/
def escapeChar (c : Char) : List Char :=
  if c = '"' then ['\\', '"']
  else if c = '\\' then ['\\', '\\']
  else if c = '\x08' then ['\\', 'b']
  else if c = '\x09' then ['\\', 't']
  else if c = '\x0a' then ['\\', 'n']
  else if c = '\x0c' then ['\\', 'f']
  else if c = '\x0d' then ['\\', 'r']
  else if c.toNat < 32 then uEscape c.toNat
  else if c.toNat < 127 then [c]
  else if c.toNat < 65536 then uEscape c.toNat
  else uEscape (55296 + (c.toNat - 65536) / 1024)
    ++ uEscape (56320 + (c.toNat - 65536) % 1024)

/-- `json.dumps` escaping of a string body (`ensure_ascii=True`). -/
def jsonEscape (s : String) : String := String.mk ((s.data.map escapeChar).flatten)

/-- `json.dumps` of a string. -/
def jsonStr (s : String) : String := "\"" ++ jsonEscape s ++ "\""

/-- Printable ASCII and free of the characters `json.dumps` escapes:
exactly the characters `escapeChar` passes through unchanged. Every
English dictionary word satisfies this. -/
def asciiClean (w : String) : Prop :=
  ∀ c ∈ w.data, 32 ≤ c.toNat ∧ c.toNat ≤ 126 ∧ c ≠ '"' ∧ c ≠ '\\'

/-- ASCII-only: on such strings Python's `str.lower()` agrees with the
embedding's ASCII folding `strLower`. -/
def asciiOnly (w : String) : Prop := ∀ c ∈ w.data, c.toNat ≤ 127

instance (w : String) : Decidable (asciiClean w) := by
  unfold asciiClean
  infer_instance

instance (w : String) : Decidable (asciiOnly w) := by
  unfold asciiOnly
  infer_instance

/-- Interpose a separator (Python's `", ".join`). -/
def sepBy (sep : String) : List String → String
  | [] => ""
  | [x] => x
  | x :: y :: xs => x ++ sep ++ sepBy sep (y :: xs)

/-- `json.dumps` of one error dict, with the default separators. -/
def errorToJson (e : SpellError) : String :=
  "\x7b" ++ jsonStr "word" ++ ": " ++ jsonStr e.word ++ ", "
    ++ jsonStr "start_pos" ++ ": " ++ toString e.start_pos ++ ", "
    ++ jsonStr "end_pos" ++ ": " ++ toString e.end_pos ++ ", "
    ++ jsonStr "suggestions" ++ ": ["
    ++ sepBy ", " (e.suggestions.map jsonStr) ++ "]" ++ "\x7d"

/-- `json.dumps` of the error list stored in `errors_json`. -/
def errorsToJson (es : List SpellError) : String :=
  "[" ++ sepBy ", " (es.map errorToJson) ++ "]"

/-- `hash_line` (src/main.py line 159): `hashlib.sha256(...).hexdigest()`.
The digest is modelled as an injective fingerprint of the input string
(the system relies on SHA-256 collision-freedom for cache-key
separation, and nothing else about the digest is observable). -/
def hash_line (line_text : String) : String := line_text

/-- `get_user_setting` (src/main.py line 114) with `default_value = None`. -/
def get_user_setting (db : DBState) (key : String) : Option String :=
  (db.settings.find? (fun p => p.1 == key)).map (·.2)

/-- The engine resolution of `spell_check_line` (src/main.py line 172):
`await get_user_setting('spell_checker_engine', 'pyspellchecker') or
'pyspellchecker'` (Python `or` also replaces an empty string). -/
def engineSetting (db : DBState) : String :=
  let e0 := (get_user_setting db "spell_checker_engine").getD "pyspellchecker"
  if e0.isEmpty then "pyspellchecker" else e0

/-- The cache fingerprint of `spell_check_line` (src/main.py line 174):
`hash_line(line_text + f"_{engine}")`. -/
def cacheKey (line_text engine : String) : String :=
  hash_line (line_text ++ "_" ++ engine)

/-! ## Spell checking in src/main.py -/

/-- Abstraction of the third-party word checker consulted by
`spell_check_word_with_engine` (src/main.py line 134): a correctness
test and a suggestion-candidates query for single words. -/
structure WordEngine where
  isCorrect : String → Bool
  suggest : String → List String

/-- `spell_check_word_with_engine`: correctness test, then up to 15
suggestions for a misspelled word (both engine branches share this
shape; the engine internals are the abstract `WordEngine`). -/
def spell_check_word_with_engine (eng : WordEngine) (word : String) :
    Bool × List String :=
  if eng.isCorrect word then (true, []) else (false, (eng.suggest word).take 15)

/-- The per-word loop of `spell_check_line` (src/main.py lines 210-233):
walk the tokens, locate each with `line_text.find(word, current_pos)`
(skipping tokens `find` misses), skip custom-dictionary words, and query
the engine for the rest. Also counts engine invocations (the second
component), the observable the spec's cache test monitors. -/
def checkWordsGo (eng : WordEngine) (custom : List String) (line : String) :
    List String → Nat → List SpellError × Nat
  | [], _ => ([], 0)
  | w :: ws, pos =>
    match strFindFrom line w pos with
    | none => checkWordsGo eng custom line ws pos
    | some wordStart =>
      let wordEnd := wordStart + w.length
      if custom.contains (strLower w) then
        checkWordsGo eng custom line ws wordEnd
      else
        let res := spell_check_word_with_engine eng w
        let rest := checkWordsGo eng custom line ws wordEnd
        if res.1 then (rest.1, rest.2 + 1)
        else ({ word := w, start_pos := wordStart, end_pos := wordEnd,
                suggestions := res.2 } :: rest.1, rest.2 + 1)

/-- `SELECT ... FROM spell_cache WHERE line_hash = ?` (line_hash is UNIQUE). -/
def lookupCache (db : DBState) (lh : String) : Option CacheEntry :=
  db.spell_cache.find? (fun e => e.line_hash == lh)

/-- `UPDATE spell_cache SET last_used = CURRENT_TIMESTAMP WHERE line_hash = ?`. -/
def touchCache (db : DBState) (lh : String) : DBState :=
  { db with
    spell_cache := db.spell_cache.map
      (fun e => if e.line_hash == lh then { e with last_used := db.now } else e),
    now := db.now + 1 }

/-- `INSERT OR REPLACE INTO spell_cache ...` keyed by the UNIQUE line_hash. -/
def storeCache (db : DBState) (lh text : String) (errors : List SpellError)
    (lang : String) : DBState :=
  { db with
    spell_cache := db.spell_cache.filter (fun e => e.line_hash != lh) ++
      [{ line_hash := lh, line_text := text, errors := some errors,
         language := lang, last_used := db.now }],
    now := db.now + 1 }

/-- `spell_check_line` (src/main.py lines 163-245): blank lines short-circuit;
otherwise resolve the engine setting, look the line up in the cache by
`hash_line(line_text + "_" + engine)` (a hit updates only `last_used` and
returns the stored list), else tokenize, check each word against the
custom dictionary and the engine, and store the result. Returns the error
list, the successor database state, and the number of engine invocations. -/
def spell_check_line (eng : WordEngine) (line_text : String) (language : String)
    (db : DBState) : List SpellError × DBState × Nat :=
  if pyStripEmpty line_text then ([], db, 0)
  else
    let lh := cacheKey line_text (engineSetting db)
    match lookupCache db lh with
    | some entry => (entry.errors.getD [], touchCache db lh, 0)
    | none =>
      let custom := db.user_dictionary.map strLower
      let res := checkWordsGo eng custom line_text (findWords line_text) 0
      (res.1, storeCache db lh line_text res.1 language, res.2)

/-- `errors_json LIKE '%"w"%'` on one row (NULL gives no match). -/
def likeQuotedWord (errors : Option (List SpellError)) (w : String) : Bool :=
  match errors with
  | none => false
  | some es => likeContains (errorsToJson es) ("\"" ++ w ++ "\"")

/-- `add_word_to_dictionary` (src/main.py lines 247-263): INSERT OR IGNORE
the lower-cased word, then DELETE the cache rows whose `errors_json`
LIKE-matches the quoted lower-cased word. -/
def add_word_to_dictionary (db : DBState) (word : String) : DBState :=
  let w := strLower word
  { db with
    user_dictionary :=
      if db.user_dictionary.contains w then db.user_dictionary
      else db.user_dictionary ++ [w],
    spell_cache := db.spell_cache.filter (fun e => !(likeQuotedWord e.errors w)) }

/-- `remove_word_from_dictionary` (src/main.py lines 421-439): DELETE the
lower-cased word, then DELETE the cache rows whose `errors_json` does NOT
LIKE-match the quoted word, or is NULL (a row survives iff it matches). -/
def remove_word_from_dictionary (db : DBState) (word : String) : DBState :=
  let w := strLower word
  { db with
    user_dictionary := db.user_dictionary.filter (fun x => x != w),
    spell_cache := db.spell_cache.filter (fun e => likeQuotedWord e.errors w) }

/-- `INSERT OR REPLACE INTO user_settings ...` for one key. -/
def upsertSetting (settings : List (String × String)) (key v : String) :
    List (String × String) :=
  settings.filter (fun p => p.1 != key) ++ [(key, v)]

/-- `update_settings` (src/main.py lines 462-499), values already stringified:
upsert every provided setting, then clear the whole spell cache when the
`spell_checker_engine` key is among the updates. -/
def update_settings (db : DBState) (updates : List (String × String)) : DBState :=
  let db' := { db with
    settings := updates.foldl (fun acc p => upsertSetting acc p.1 p.2) db.settings }
  if updates.any (fun p => p.1 == "spell_checker_engine") then
    { db' with spell_cache := [] }
  else db'

/-! ## Provider layer (src/backend/spellcheckers/) -/

/-- One error dict as produced by the backend providers
(src/backend/spellcheckers/pyspellchecker.py lines 84-91). -/
structure ProviderError where
  word : String
  position : Nat
  length : Nat
  suggestions : List String
  line : Nat
  column : Nat
deriving Repr, DecidableEq

/-- `SpellCheckResult` (src/backend/spellcheckers/base.py lines 14-46);
the metadata map is not modelled (no claim mentions it). -/
structure SpellCheckResult where
  original_text : String
  errors : List ProviderError
  language : String
  engine : String
deriving Repr, DecidableEq

/-- `result.has_errors` (src/backend/spellcheckers/base.py line 39). -/
def SpellCheckResult.has_errors (r : SpellCheckResult) : Bool := !r.errors.isEmpty

/-- A third-party `SpellChecker` object: `unknown` (the misspelled subset
of a word list) and `candidates` (suggestions for one word). Both are
fallible — `.error` models an exception escaping the library call, which
nothing in the provider catches. -/
structure PySpellEngine where
  unknown : List String → Except String (List String)
  candidates : String → Except String (List String)

/-- `PySpellCheckerProvider` (src/backend/spellcheckers/pyspellchecker.py).
`available` is the conjunction `is_available()` tests (library importable,
`_available`, engine handle non-null); `engine` is `self._spell_checker`;
`mkEngine lang` is the fallible constructor `SpellChecker(language=lang)`
run per call when a different language is requested (lines 59-63) —
it raises for unsupported languages. -/
structure PySpellCheckerProvider where
  name : String := "PySpellChecker"
  language : String
  available : Bool
  engine : PySpellEngine
  mkEngine : String → Except String PySpellEngine

/-- `PySpellCheckerProvider.check_text` (pyspellchecker.py lines 52-104):
raises `SpellCheckerNotAvailableError` when unavailable (the `.error`
branch); otherwise picks `self._spell_checker`, or re-initializes
`SpellChecker(language=lang)` when another language is requested (which
may raise, uncaught); tokenizes `text.lower()` for the engine's
`unknown` query (uncaught); takes positions from `re.finditer` on the
original text, and flags every positioned token whose lower-casing is
unknown, querying `candidates` (uncaught) for up to 5 suggestions. -/
def PySpellCheckerProvider.check_text (p : PySpellCheckerProvider)
    (text : String) (language : Option String) : Except String SpellCheckResult :=
  if !p.available then .error (p.name ++ " is not available")
  else
    let lang := language.getD p.language
    Except.bind
      (if lang = p.language then Except.ok p.engine else p.mkEngine lang)
      (fun temp =>
        Except.bind (temp.unknown (findWords (strLower text)))
          (fun misspelled =>
            Except.map
              (fun errOpts =>
                { original_text := text, errors := List.filterMap id errOpts,
                  language := lang, engine := p.name })
              ((wordRuns text).mapM (fun wse =>
                if misspelled.contains (strLower wse.1) then
                  (temp.candidates (strLower wse.1)).map (fun cands =>
                    some { word := wse.1, position := wse.2.1,
                           length := wse.2.2 - wse.2.1,
                           suggestions := cands.take 5, line := 0,
                           column := wse.2.1 })
                else pure (none : Option ProviderError)))))

/-- `PySpellCheckerProvider.check_lines` (pyspellchecker.py lines 106-118):
check each non-blank line, annotating errors with the line number; a raise
from `check_text` aborts the whole call. -/
def PySpellCheckerProvider.check_lines (p : PySpellCheckerProvider)
    (lines : List String) (language : Option String) :
    Except String (List (Nat × SpellCheckResult)) :=
  (lines.enum.filter (fun li => !(pyStripEmpty li.2))).mapM (fun li =>
    (p.check_text li.2 language).map (fun r =>
      (li.1, { r with errors := r.errors.map (fun e => { e with line := li.1 }) })))

/-! ## Factory (src/backend/spellcheckers/factory.py) -/

/-- `SpellCheckerType` (factory.py lines 19-24). -/
inductive SpellCheckerType
  | pyspellchecker
  | hunspell
  | neuspell
  | autocorrect
deriving Repr, DecidableEq

/-- `SpellCheckerType(value)` on a lower-cased string: the enum lookup in
`SpellcheckEventHandler._process_message` / `get_checker`. -/
def parseCheckerType (s : String) : Option SpellCheckerType :=
  if s = "pyspellchecker" then some .pyspellchecker
  else if s = "hunspell" then some .hunspell
  else if s = "neuspell" then some .neuspell
  else if s = "autocorrect" then some .autocorrect
  else none

def SpellCheckerType.value : SpellCheckerType → String
  | .pyspellchecker => "pyspellchecker"
  | .hunspell => "hunspell"
  | .neuspell => "neuspell"
  | .autocorrect => "autocorrect"

/-- A provider instance as the factory sees it: name, `is_available()`, and
the `check_lines` capability (fallible: providers may raise, e.g.
`SpellCheckerNotAvailableError`). Concrete providers such as
`PySpellCheckerProvider` refine this interface. -/
structure Checker where
  name : String
  available : Bool
  checkLinesFn : List String → Option String → Except String (List (Nat × SpellCheckResult))

/-- View of a `PySpellCheckerProvider` as a factory-level `Checker`. -/
def PySpellCheckerProvider.toChecker (p : PySpellCheckerProvider) : Checker :=
  { name := p.name, available := p.available, checkLinesFn := p.check_lines }

/-- `SpellCheckerFactory` state (factory.py lines 43-46): the `_instances`
map keyed by `f"{type}_{language}"`, the `_initialized_providers` map, the
default language, and the lazy constructor `provider_class(language=...)`
(abstracted, since each provider class is third-party-backed). -/
structure SpellCheckerFactory where
  instances : List (String × Checker)
  initialized : List (SpellCheckerType × Bool)
  defaultLanguage : String
  mkInstance : SpellCheckerType → String → Checker

/-- The `_instances` key `f"{checker_type.value}_{language}"`. -/
def instanceKey (t : SpellCheckerType) (lang : String) : String :=
  t.value ++ "_" ++ lang

/-- `self._initialized_providers.get(checker_type, False)`. -/
def SpellCheckerFactory.initializedFor (fac : SpellCheckerFactory)
    (t : SpellCheckerType) : Bool :=
  ((fac.initialized.find? (fun p => p.1 == t)).map (·.2)).getD false

/-- `SpellCheckerFactory.get_checker` (factory.py lines 80-120) for an
already-parsed type: return the cached instance, else lazily construct one
(the constructed instance is returned un-initialized; the Python-side
mutation of `_instances` does not affect any claim and is not threaded). -/
def SpellCheckerFactory.get_checker (fac : SpellCheckerFactory)
    (t : SpellCheckerType) (language : Option String) : Option Checker :=
  let lang := language.getD fac.defaultLanguage
  match fac.instances.find? (fun p => p.1 == instanceKey t lang) with
  | some p => some p.2
  | none => some (fac.mkInstance t lang)

/-- The fixed priority order of `get_best_checker` (factory.py lines 156-161). -/
def priorityOrder : List SpellCheckerType :=
  [.neuspell, .hunspell, .autocorrect, .pyspellchecker]

/-- `SpellCheckerFactory.get_best_checker` (factory.py lines 143-169):
first type in priority order that is initialized and whose instance
reports availability. -/
def SpellCheckerFactory.get_best_checker (fac : SpellCheckerFactory)
    (language : Option String) : Option Checker :=
  priorityOrder.findSome? (fun t =>
    if fac.initializedFor t then
      match fac.get_checker t language with
      | some c => if c.available then some c else none
      | none => none
    else none)

/-- `SpellCheckerFactory.check_lines` (factory.py lines 201-229): resolve
the checker (explicit type, else best available); with no checker, or when
the checker's `check_lines` raises, return the empty map. -/
def SpellCheckerFactory.check_lines (fac : SpellCheckerFactory)
    (lines : List String) (checker_type : Option SpellCheckerType)
    (language : Option String) : List (Nat × SpellCheckResult) :=
  let checker? := match checker_type with
    | some t => fac.get_checker t language
    | none => fac.get_best_checker language
  match checker? with
  | none => []
  | some c =>
    match c.checkLinesFn lines language with
    | .ok res => res
    | .error _ => []

/-! ## EDA framework (src/backend/handlers/eda_framework.py) -/

/-- A raw WebSocket message dict, restricted to the fields the routed
handlers read (extra fields no claim touches are not modelled). `none`
models an absent key (`dict.get(...)` returning `None`). -/
structure RawMessage where
  message_key : Option String := none
  correlation_id : Option String := none
  lines : Option (List String) := none
  language : Option String := none
  engine : Option String := none
deriving Repr, DecidableEq

/-- A response dict. Different handlers populate different keys; a field a
given Python response dict lacks is `none`/default here. `errors` is the
spellcheck response's line-indexed sparse error map, in line order. -/
structure EventResponse where
  message_key : String
  success : Bool
  correlation_id : Option String := none
  error_message : Option String := none
  available_handlers : Option (List String) := none
  errors : List (Nat × List ProviderError) := []
  lines_checked : Nat := 0
  engine_used : Option String := none
  language_used : String := "en"
deriving Repr, DecidableEq

/-- A registered event handler (a `BaseEventHandler` subclass): its message
key, the pydantic validation `message_schema(**raw_message)` (where
`.error` carries the ValidationError text), and `_process_message` on the
validated model. -/
structure EventHandler (α : Type) where
  message_key : String
  validate : RawMessage → Except String α
  process : α → EventResponse

/-- `BaseEventHandler.handle_message` (eda_framework.py lines 71-100):
validate, then process; on failure, the `{message_key}_error` response
with `success=False`, the exception text, and
`raw_message.get("correlation_id")`. (`_process_message` is total in this
embedding, so the except-branch catches exactly validation failures.) -/
def handle_message {α : Type} (h : EventHandler α) (raw : RawMessage) : EventResponse :=
  match h.validate raw with
  | .ok m => h.process m
  | .error e =>
    { message_key := h.message_key ++ "_error", success := false,
      error_message := some e, correlation_id := raw.correlation_id }

/-- The `_handlers` dict of `WebSocketEventRouter`: message_key to the
handler's `handle_message` entry point. -/
abbrev Router := List (String × (RawMessage → EventResponse))

/-- Python's truthiness test `if not message_key` on
`message.get("message_key")`: absent and empty both fail it. -/
def presentKey (m : RawMessage) : Option String :=
  match m.message_key with
  | none => none
  | some s => if s.isEmpty then none else some s

/-- `WebSocketEventRouter.route_message` (eda_framework.py lines 221-262):
missing key and unknown key produce structured error responses (the
latter listing the registered keys); otherwise dispatch to the handler.
The router-level try/except (lines 253-262) is unreachable here because
`handle_message` is total. -/
def route_message (router : Router) (msg : RawMessage) : EventResponse :=
  match presentKey msg with
  | none =>
    { message_key := "error", success := false,
      error_message := some "Message must include 'message_key' field",
      correlation_id := msg.correlation_id }
  | some k =>
    match router.find? (fun p => p.1 == k) with
    | none =>
      { message_key := "error", success := false,
        error_message := some ("No handler registered for message_key: " ++ k),
        correlation_id := msg.correlation_id,
        available_handlers := some (router.map (·.1)) }
    | some p => p.2 msg

/-! ## Spellcheck handler (src/backend/handlers/spellcheck_handler.py) -/

/-- The validated `SpellcheckPydanticRequest` (spellcheck_handler.py lines
16-34, extending `BaseEventRequest`). -/
structure SpellcheckPydanticRequest where
  message_key : String := "spellcheck_request"
  correlation_id : Option String
  lines : List String
  language : String := "en"
  engine : Option String := none
deriving Repr, DecidableEq

/-- Pydantic validation of a raw dict against `SpellcheckPydanticRequest`:
`lines` is the one required field; `language` defaults to `"en"`;
`correlation_id` defaults to `str(uuid.uuid4())`, modelled by the `fresh`
argument (the UUID generated during this validation). -/
def validateSpellcheck (fresh : String) (raw : RawMessage) :
    Except String SpellcheckPydanticRequest :=
  match raw.lines with
  | none => .error "1 validation error for SpellcheckPydanticRequest: lines field required"
  | some ls =>
    .ok { message_key := raw.message_key.getD "spellcheck_request",
          correlation_id := some (raw.correlation_id.getD fresh),
          lines := ls,
          language := raw.language.getD "en",
          engine := raw.engine }

/-- `SpellcheckEventHandler._process_message` (spellcheck_handler.py lines
84-154): parse the requested engine (an unknown name falls back to
best-available with only a warning), run the factory's `check_lines`,
keep the lines with errors, record the first non-empty engine name, and
build the response with `success=True`. The except-branch (lines 140-154)
is unreachable here because every modelled step is total. -/
def spellcheck_process (fac : SpellCheckerFactory)
    (message : SpellcheckPydanticRequest) : EventResponse :=
  let checker_type := message.engine.bind (fun e => parseCheckerType (strLower e))
  let results := fac.check_lines message.lines checker_type (some message.language)
  let errors := results.filterMap (fun lr =>
    if lr.2.has_errors then some (lr.1, lr.2.errors) else none)
  let engine_used := (results.map (fun lr => lr.2.engine)).find? (fun s => !s.isEmpty)
  { message_key := "spellcheck_response", success := true,
    errors := errors, lines_checked := message.lines.length,
    engine_used := engine_used, language_used := message.language,
    correlation_id := message.correlation_id }

/-- The `SpellcheckEventHandler` (spellcheck_handler.py lines 69-158) as an
`EventHandler`, given the factory state and the UUID the validation's
default factory would generate. -/
def spellcheckHandler (fac : SpellCheckerFactory) (fresh : String) :
    EventHandler SpellcheckPydanticRequest :=
  { message_key := "spellcheck_request",
    validate := validateSpellcheck fresh,
    process := spellcheck_process fac }

/-! ## Cache well-formedness (states reachable by the program) -/

/-- The position invariant of one reported error against the checked line. -/
def errValidFor (line : String) (err : SpellError) : Prop :=
  err.start_pos < err.end_pos ∧ err.end_pos ≤ line.length ∧
  pySlice line err.start_pos err.end_pos = err.word

/-- Cache rows as `spell_check_line` writes them under the current engine
setting: keyed by the fingerprint of their own line text and the active
engine, with every stored error satisfying the position invariant for
that line. Holds for the empty cache and is preserved by
`spell_check_line` (engine changes clear the cache wholesale). -/
def CacheOK (db : DBState) : Prop :=
  ∀ e ∈ db.spell_cache,
    e.line_hash = cacheKey e.line_text (engineSetting db) ∧
    ∀ es, e.errors = some es → ∀ err ∈ es, errValidFor e.line_text err

/-! ## Character-level lemmas -/

theorem char_eq_of_toNat_eq {a b : Char} (h : a.toNat = b.toNat) : a = b :=
  Char.ext (UInt32.toNat.inj h)

theorem char_le_iff_toNat {a b : Char} : a ≤ b ↔ a.toNat ≤ b.toNat := by
  rw [Char.le_def]
  exact ⟨fun h => h, fun h => h⟩

theorem charOfNat_toNat {n : Nat} (h : n < 55296) : (Char.ofNat n).toNat = n := by
  have hv : n.isValidChar := Or.inl h
  simp [Char.ofNat, hv, Char.ofNatAux, Char.toNat, UInt32.toNat, UInt32.ofNat',
    BitVec.toNat_ofNatLt]

theorem asciiLowerChar_upper {c : Char} (h1 : 65 ≤ c.toNat) (h2 : c.toNat ≤ 90) :
    (asciiLowerChar c).toNat = c.toNat + 32 := by
  have hcond : 'A' ≤ c ∧ c ≤ 'Z' :=
    ⟨char_le_iff_toNat.mpr h1, char_le_iff_toNat.mpr h2⟩
  rw [asciiLowerChar, if_pos hcond]
  exact charOfNat_toNat (by omega)

theorem asciiLowerChar_other {c : Char} (h : ¬(65 ≤ c.toNat ∧ c.toNat ≤ 90)) :
    asciiLowerChar c = c := by
  have : ¬('A' ≤ c ∧ c ≤ 'Z') := by
    intro ⟨h1, h2⟩
    exact h ⟨char_le_iff_toNat.mp h1, char_le_iff_toNat.mp h2⟩
  simp only [asciiLowerChar, if_neg this]

theorem asciiLowerChar_idem (c : Char) :
    asciiLowerChar (asciiLowerChar c) = asciiLowerChar c := by
  by_cases h : 65 ≤ c.toNat ∧ c.toNat ≤ 90
  · have hlow := asciiLowerChar_upper h.1 h.2
    exact asciiLowerChar_other (by omega)
  · rw [asciiLowerChar_other h, asciiLowerChar_other h]

theorem asciiLowerChar_quote {c : Char} (h : asciiLowerChar c = '"') : c = '"' := by
  by_cases hc : 65 ≤ c.toNat ∧ c.toNat ≤ 90
  · exfalso
    have hlow := asciiLowerChar_upper hc.1 hc.2
    rw [h] at hlow
    have h34 : ('"').toNat = 34 := by decide
    omega
  · rwa [asciiLowerChar_other hc] at h

theorem asciiLowerChar_backslash {c : Char} (h : asciiLowerChar c = '\\') : c = '\\' := by
  by_cases hc : 65 ≤ c.toNat ∧ c.toNat ≤ 90
  · exfalso
    have hlow := asciiLowerChar_upper hc.1 hc.2
    rw [h] at hlow
    have h92 : ('\\').toNat = 92 := by decide
    omega
  · rwa [asciiLowerChar_other hc] at h

theorem strLower_data (s : String) : (strLower s).data = s.data.map asciiLowerChar := rfl

theorem strLower_idem (s : String) : strLower (strLower s) = strLower s := by
  apply String.ext
  simp only [strLower_data, List.map_map]
  exact List.map_congr_left (fun c _ => asciiLowerChar_idem c)

/-! ## Substring containment lemmas -/

theorem charsStartWith_iff {s sub : List Char} :
    charsStartWith s sub = true ↔ sub <+: s := by
  induction sub generalizing s with
  | nil => simp [charsStartWith]
  | cons b bs ih =>
    cases s with
    | nil => simp [charsStartWith]
    | cons a as =>
      simp only [charsStartWith, Bool.and_eq_true, beq_iff_eq, ih,
        List.cons_prefix_cons]
      exact ⟨fun ⟨h1, h2⟩ => ⟨h1.symm, h2⟩, fun ⟨h1, h2⟩ => ⟨h1.symm, h2⟩⟩

theorem charsContains_iff {s sub : List Char} :
    charsContains s sub = true ↔ sub <:+: s := by
  induction s with
  | nil => simp [charsContains, List.isEmpty_iff]
  | cons a t ih =>
    simp only [charsContains, Bool.or_eq_true, charsStartWith_iff, ih,
      List.infix_cons_iff]

theorem strContains_iff {s sub : String} :
    strContains s sub = true ↔ sub.data <:+: s.data := by
  simp only [strContains, charsContains_iff, String.toList]

theorem likeMatch_append_star : ∀ (pat m b : List Char),
    m.map asciiLowerChar = pat.map asciiLowerChar →
    likeMatch (pat ++ ['%']) (m ++ b) = true := by
  intro pat
  induction pat with
  | nil =>
    intro m b hm
    have hm0 : m = [] := by
      cases m with
      | nil => rfl
      | cons c t => cases hm
    subst hm0
    show likeMatch ('%' :: []) b = true
    simp only [likeMatch, if_pos rfl]
    apply List.any_eq_true.mpr
    refine ⟨b.length, List.mem_range.mpr (by omega), ?_⟩
    simp [likeMatch]
  | cons p ps ih =>
    intro m b hm
    cases m with
    | nil => cases hm
    | cons c t =>
      simp only [List.map_cons, List.cons.injEq] at hm
      obtain ⟨hc, ht⟩ := hm
      show likeMatch (p :: (ps ++ ['%'])) (c :: (t ++ b)) = true
      by_cases hp : p = '%'
      · simp only [likeMatch, if_pos hp]
        apply List.any_eq_true.mpr
        refine ⟨1, List.mem_range.mpr (by simp), ?_⟩
        simpa using ih t b ht
      · simp only [likeMatch, if_neg hp]
        rw [Bool.and_eq_true, Bool.or_eq_true]
        exact ⟨Or.inr (by rw [beq_iff_eq]; exact hc.symm), ih t b ht⟩

theorem likeContains_of_fold_infix {s pat : String}
    (h : pat.data.map asciiLowerChar <:+: s.data.map asciiLowerChar) :
    likeContains s pat = true := by
  obtain ⟨a', b', heq⟩ := h
  have hlen : a'.length + pat.data.length ≤ s.data.length := by
    have hl := congrArg List.length heq
    rw [List.length_append, List.length_append, List.length_map, List.length_map] at hl
    omega
  have hm : ((s.data.drop a'.length).take pat.data.length).map asciiLowerChar
      = pat.data.map asciiLowerChar := by
    rw [List.map_take, List.map_drop, ← heq]
    rw [List.append_assoc, List.drop_left, List.take_left']
    rw [List.length_map]
  unfold likeContains
  simp only [likeMatch, if_pos rfl]
  apply List.any_eq_true.mpr
  refine ⟨a'.length, List.mem_range.mpr (by omega), ?_⟩
  have hsplit : s.data.drop a'.length
      = (s.data.drop a'.length).take pat.data.length
        ++ (s.data.drop a'.length).drop pat.data.length :=
    (List.take_append_drop _ _).symm
  rw [hsplit]
  exact likeMatch_append_star _ _ _ hm

theorem likeContains_of_strContains {s pat : String}
    (h : strContains s pat = true) : likeContains s pat = true :=
  likeContains_of_fold_infix (List.IsInfix.map asciiLowerChar (strContains_iff.mp h))

theorem sepBy_data_infix {sep x : String} {l : List String} (hx : x ∈ l) :
    x.data <:+: (sepBy sep l).data := by
  induction l with
  | nil => cases hx
  | cons y ys ih =>
    cases ys with
    | nil =>
      rcases List.mem_singleton.mp hx with rfl
      exact List.infix_refl _
    | cons z zs =>
      rcases List.mem_cons.mp hx with rfl | hmem
      · show x.data <:+: (x ++ sep ++ sepBy sep (z :: zs)).data
        exact ⟨[], sep.data ++ (sepBy sep (z :: zs)).data, by
          simp [String.data_append]⟩
      · show x.data <:+: (y ++ sep ++ sepBy sep (z :: zs)).data
        refine (ih hmem).trans ⟨y.data ++ sep.data, [], ?_⟩
        simp [String.data_append]

theorem jsonStr_infix_errorToJson (e : SpellError) :
    (jsonStr e.word).data <:+: (errorToJson e).data := by
  refine ⟨("\x7b" ++ jsonStr "word" ++ ": ").data,
    (", " ++ jsonStr "start_pos" ++ ": " ++ toString e.start_pos ++ ", "
      ++ jsonStr "end_pos" ++ ": " ++ toString e.end_pos ++ ", "
      ++ jsonStr "suggestions" ++ ": ["
      ++ sepBy ", " (e.suggestions.map jsonStr) ++ "]" ++ "\x7d").data, ?_⟩
  simp [errorToJson, String.data_append]

theorem jsonStr_infix_errorsToJson {e : SpellError} {es : List SpellError}
    (he : e ∈ es) : (jsonStr e.word).data <:+: (errorsToJson es).data := by
  have h1 : (errorToJson e).data <:+: (sepBy ", " (es.map errorToJson)).data :=
    sepBy_data_infix (List.mem_map_of_mem errorToJson he)
  have h2 : (sepBy ", " (es.map errorToJson)).data <:+: (errorsToJson es).data := by
    refine ⟨"[".data, "]".data, ?_⟩
    simp [errorsToJson, String.data_append]
  exact ((jsonStr_infix_errorToJson e).trans h1).trans h2

theorem escapeChar_clean {c : Char}
    (h : 32 ≤ c.toNat ∧ c.toNat ≤ 126 ∧ c ≠ '"' ∧ c ≠ '\\') :
    escapeChar c = [c] := by
  obtain ⟨h1, h2, hq, hb⟩ := h
  have h8 : c ≠ '\x08' := by
    intro habs; rw [habs] at h1; exact absurd h1 (by decide)
  have h9 : c ≠ '\x09' := by
    intro habs; rw [habs] at h1; exact absurd h1 (by decide)
  have ha : c ≠ '\x0a' := by
    intro habs; rw [habs] at h1; exact absurd h1 (by decide)
  have hcc : c ≠ '\x0c' := by
    intro habs; rw [habs] at h1; exact absurd h1 (by decide)
  have hd : c ≠ '\x0d' := by
    intro habs; rw [habs] at h1; exact absurd h1 (by decide)
  unfold escapeChar
  rw [if_neg hq, if_neg hb, if_neg h8, if_neg h9, if_neg ha, if_neg hcc, if_neg hd,
    if_neg (by omega), if_pos (by omega)]

theorem jsonEscapeList_clean : ∀ (l : List Char),
    (∀ c ∈ l, 32 ≤ c.toNat ∧ c.toNat ≤ 126 ∧ c ≠ '"' ∧ c ≠ '\\') →
    (l.map escapeChar).flatten = l := by
  intro l h
  induction l with
  | nil => rfl
  | cons c cs ih =>
    simp only [List.map_cons, List.flatten_cons]
    rw [escapeChar_clean (h c (by simp)), ih (fun x hx => h x (by simp [hx]))]
    rfl

theorem jsonEscape_of_clean {w : String} (h : asciiClean w) : jsonEscape w = w :=
  String.ext (jsonEscapeList_clean w.data h)


/-! ## Find, slice and tokenizer lemmas -/

theorem charsStartWith_length {t sub : List Char} (h : charsStartWith t sub = true) :
    sub.length ≤ t.length :=
  (charsStartWith_iff.mp h).length_le

theorem charsStartWith_take {t sub : List Char} (h : charsStartWith t sub = true) :
    t.take sub.length = sub := by
  rcases charsStartWith_iff.mp h with ⟨r, rfl⟩
  simp

theorem findSubIdx_startsWith : ∀ {l sub : List Char} {i : Nat},
    findSubIdx l sub = some i → charsStartWith (l.drop i) sub = true := by
  intro l
  induction l with
  | nil =>
    intro sub i h
    simp only [findSubIdx] at h
    split at h
    · cases h
      simp_all [charsStartWith, List.isEmpty_iff]
    · cases h
  | cons a t ih =>
    intro sub i h
    simp only [findSubIdx] at h
    split at h
    · cases h
      simpa using ‹charsStartWith (a :: t) sub = true›
    · rcases Option.map_eq_some'.mp h with ⟨j, hj, rfl⟩
      simpa using ih hj

theorem strFindFrom_spec {s sub : String} {pos i : Nat}
    (h : strFindFrom s sub pos = some i) :
    charsStartWith (s.data.drop i) sub.data = true := by
  unfold strFindFrom at h
  rcases Option.map_eq_some'.mp h with ⟨j, hj, rfl⟩
  have hs := findSubIdx_startsWith hj
  rw [List.drop_drop, Nat.add_comm pos j] at hs
  exact hs

theorem wordRunsGo_fst_len : ∀ (cs : List Char) (i start : Nat) (acc : List Char),
    ∀ p ∈ wordRunsGo cs i start acc,
      1 ≤ p.1.length ∨ (acc ≠ [] ∧ p.1.length = acc.length) := by
  intro cs
  induction cs with
  | nil =>
    intro i start acc p hp
    simp only [wordRunsGo] at hp
    split at hp
    · cases hp
    · rcases List.mem_singleton.mp hp with rfl
      right
      refine ⟨by simpa [List.isEmpty_iff] using ‹¬acc.isEmpty = true›, ?_⟩
      simp [String.length]
  | cons c rest ih =>
    intro i start acc p hp
    simp only [wordRunsGo] at hp
    split_ifs at hp with h1 h2 h3
    · rcases ih (i + 1) i [c] p hp with h | ⟨_, hlen⟩
      · exact Or.inl h
      · exact Or.inl (by simp at hlen; omega)
    · rcases ih (i + 1) start (c :: acc) p hp with h | ⟨_, hlen⟩
      · exact Or.inl h
      · exact Or.inl (by simp at hlen; omega)
    · rcases ih (i + 1) start acc p hp with h | ⟨hacc, hlen⟩
      · exact Or.inl h
      · exact Or.inr ⟨hacc, hlen⟩
    · rcases List.mem_cons.mp hp with rfl | hmem
      · right
        refine ⟨by simpa [List.isEmpty_iff] using h3, ?_⟩
        simp [String.length]
      · rcases ih (i + 1) (i + 1) [] p hmem with h | ⟨habs, _⟩
        · exact Or.inl h
        · exact absurd rfl habs

theorem findWords_token_len {s : String} {w : String} (hw : w ∈ findWords s) :
    1 ≤ w.length := by
  rcases List.mem_map.mp hw with ⟨p, hp, rfl⟩
  rcases wordRunsGo_fst_len s.data 0 0 [] p hp with h | ⟨habs, _⟩
  · exact h
  · exact absurd rfl habs

theorem wordRunsGo_all_nonword : ∀ (cs : List Char),
    (∀ c ∈ cs, isWordChar c = false) → ∀ i start, wordRunsGo cs i start [] = [] := by
  intro cs h
  induction cs with
  | nil => intro i start; rfl
  | cons c rest ih =>
    intro i start
    have hc : isWordChar c = false := h c (by simp)
    simp only [wordRunsGo, hc, Bool.false_eq_true, if_false, List.isEmpty_nil, if_true]
    exact ih (fun x hx => h x (by simp [hx])) (i + 1) start

/-! ## checkWordsGo soundness -/

theorem checkWordsGo_sound (eng : WordEngine) (custom : List String) (line : String) :
    ∀ (ws : List String) (pos : Nat) (err : SpellError),
    err ∈ (checkWordsGo eng custom line ws pos).1 →
    err.word ∈ ws ∧ custom.contains (strLower err.word) = false ∧
    err.end_pos = err.start_pos + err.word.length ∧
    charsStartWith (line.data.drop err.start_pos) err.word.data = true := by
  intro ws
  induction ws with
  | nil =>
    intro pos err herr
    simp [checkWordsGo] at herr
  | cons w ws ih =>
    intro pos err herr
    rw [checkWordsGo] at herr
    cases hfind : strFindFrom line w pos with
    | none =>
      rw [hfind] at herr
      have h := ih pos err herr
      exact ⟨List.mem_cons_of_mem w h.1, h.2⟩
    | some wordStart =>
      rw [hfind] at herr
      simp only at herr
      split_ifs at herr with hdict hcorrect
      · have h := ih (wordStart + w.length) err herr
        exact ⟨List.mem_cons_of_mem w h.1, h.2⟩
      · have h := ih (wordStart + w.length) err herr
        exact ⟨List.mem_cons_of_mem w h.1, h.2⟩
      · rcases List.mem_cons.mp herr with rfl | hmem
        · refine ⟨List.mem_cons_self _ _, by simpa using hdict, rfl, ?_⟩
          exact strFindFrom_spec hfind
        · have h := ih (wordStart + w.length) err hmem
          exact ⟨List.mem_cons_of_mem w h.1, h.2⟩

/-! ## Claim C2 -/

/-- Claim C2: `route_message` never raises (it is a total function here); a
message without a `message_key` field yields an error response with
`message_key="error"` and `success=false` carrying the request's
correlation_id, and a `message_key` with no registered handler yields an
error response with `message_key="error"` and `success=false` that lists
the currently registered handler keys. -/
theorem C2_route_message_error_paths (router : Router) (msg : RawMessage) :
    (msg.message_key = none →
      route_message router msg =
        { message_key := "error", success := false,
          error_message := some "Message must include 'message_key' field",
          correlation_id := msg.correlation_id })
    ∧ (∀ k, presentKey msg = some k →
        router.find? (fun p => p.1 == k) = none →
        (route_message router msg).message_key = "error"
        ∧ (route_message router msg).success = false
        ∧ (route_message router msg).available_handlers = some (router.map (·.1))
        ∧ (route_message router msg).correlation_id = msg.correlation_id) := by
  constructor
  · intro hk
    simp [route_message, presentKey, hk]
  · intro k hk hfind
    simp [route_message, hk, hfind]

/-- Witness for C2: routing `%x7bmessage_key: "nonexistent_key"%x7d` on an
empty router returns the structured error response. -/
theorem C2_witness :
    (route_message [] { message_key := some "nonexistent_key" }).message_key = "error"
    ∧ (route_message [] { message_key := some "nonexistent_key" }).success = false
    ∧ (route_message [] { message_key := some "nonexistent_key" }).available_handlers
        = some [] := by
  have h := (C2_route_message_error_paths [] { message_key := some "nonexistent_key" }).2
    "nonexistent_key" rfl rfl
  exact ⟨h.1, h.2.1, h.2.2.1⟩

/-! ## Claim C8 -/

/-- Claim C8: when a handler's schema validation fails on a raw message,
`handle_message` returns (without raising) a response with
`success=false`, the validation-error message, `message_key` equal to the
handler's key with `"_error"` appended, and a correlation_id equal to the
raw payload's correlation_id field when present (null when absent). -/
theorem C8_validation_error_response {α : Type} (h : EventHandler α)
    (raw : RawMessage) (e : String) (hv : h.validate raw = .error e) :
    handle_message h raw =
      { message_key := h.message_key ++ "_error", success := false,
        error_message := some e, correlation_id := raw.correlation_id } := by
  simp [handle_message, hv]

/-- Witness for C8: the spellcheck handler on a payload missing the
required `lines` field. -/
theorem C8_witness :
    handle_message
      (spellcheckHandler
        { instances := [], initialized := [], defaultLanguage := "en",
          mkInstance := fun _ _ =>
            { name := "nullchecker", available := false,
              checkLinesFn := fun _ _ => .error "unavailable" } }
        "uuid-123")
      { message_key := some "spellcheck_request", correlation_id := some "cid-8" } =
      { message_key := "spellcheck_request_error", success := false,
        error_message :=
          some "1 validation error for SpellcheckPydanticRequest: lines field required",
        correlation_id := some "cid-8" } :=
  C8_validation_error_response _ _ _ rfl

/-! ## Claim C10 -/

/-- Claim C10: a raw payload that omits correlation_id but passes the
spellcheck handler's schema validation is assigned the freshly generated
(non-null) UUID as correlation_id, and the handler's response echoes that
generated value, so it never carries a null correlation_id. -/
theorem C10_generated_correlation_id (fac : SpellCheckerFactory) (fresh : String)
    (raw : RawMessage) (m : SpellcheckPydanticRequest)
    (hnone : raw.correlation_id = none)
    (hok : validateSpellcheck fresh raw = .ok m) :
    m.correlation_id = some fresh ∧
    (handle_message (spellcheckHandler fac fresh) raw).correlation_id = some fresh := by
  cases hl : raw.lines with
  | none => simp [validateSpellcheck, hl] at hok
  | some ls =>
    simp only [validateSpellcheck, hl, Except.ok.injEq] at hok
    have hm : m.correlation_id = some fresh := by
      rw [← hok]
      simp [hnone]
    refine ⟨hm, ?_⟩
    simp [handle_message, spellcheckHandler, validateSpellcheck, hl,
      spellcheck_process, ← hok, hnone]

/-- Witness for C10: a lines-only payload gets the generated UUID back. -/
theorem C10_witness :
    (handle_message
      (spellcheckHandler
        { instances := [], initialized := [], defaultLanguage := "en",
          mkInstance := fun _ _ =>
            { name := "nullchecker", available := false,
              checkLinesFn := fun _ _ => .error "unavailable" } }
        "uuid-456")
      { message_key := some "spellcheck_request",
        lines := some ["hello"] }).correlation_id = some "uuid-456" :=
  (C10_generated_correlation_id
    { instances := [], initialized := [], defaultLanguage := "en",
      mkInstance := fun _ _ =>
        { name := "nullchecker", available := false,
          checkLinesFn := fun _ _ => .error "unavailable" } }
    "uuid-456"
    { message_key := some "spellcheck_request", lines := some ["hello"] }
    { message_key := "spellcheck_request", correlation_id := some "uuid-456",
      lines := ["hello"], language := "en", engine := none }
    rfl rfl).2

/-! ## Claim C1 -/

/-- Claim C1 counterexample: a spellcheck request processed while no
spell-check provider is available produces a response with
`success=true` and no error message — the claim requires `success=false`
with an explanatory error message. (The errors map is indeed empty.) -/
theorem C1_counterexample :
    (spellcheck_process
      { instances := [], initialized := [], defaultLanguage := "en",
        mkInstance := fun _ _ =>
          { name := "nullchecker", available := false,
            checkLinesFn := fun _ _ => .error "unavailable" } }
      { message_key := "spellcheck_request", correlation_id := some "cid-1",
        lines := ["helllo wrld"], language := "en", engine := none }).success = true
    ∧ (spellcheck_process
      { instances := [], initialized := [], defaultLanguage := "en",
        mkInstance := fun _ _ =>
          { name := "nullchecker", available := false,
            checkLinesFn := fun _ _ => .error "unavailable" } }
      { message_key := "spellcheck_request", correlation_id := some "cid-1",
        lines := ["helllo wrld"], language := "en", engine := none }).error_message
      = none := by
  exact ⟨rfl, rfl⟩

/-- Claim C1 (amended): for every spellcheck request processed while no
spell-check provider is available (no explicit engine resolves and the
factory's best-available lookup yields none), the handler's response has
`success=true`, an empty errors map, no engine_used, and no error
message — provider unavailability is not surfaced as an error. -/
theorem C1_no_provider_success_response (fac : SpellCheckerFactory)
    (msg : SpellcheckPydanticRequest)
    (hengine : msg.engine.bind (fun e => parseCheckerType (strLower e)) = none)
    (hbest : fac.get_best_checker (some msg.language) = none) :
    spellcheck_process fac msg =
      { message_key := "spellcheck_response", success := true, errors := [],
        lines_checked := msg.lines.length, engine_used := none,
        language_used := msg.language, correlation_id := msg.correlation_id } := by
  simp [spellcheck_process, SpellCheckerFactory.check_lines, hengine, hbest]

/-- Witness for C1's amended theorem at an empty factory. -/
theorem C1_witness :
    spellcheck_process
      { instances := [], initialized := [], defaultLanguage := "en",
        mkInstance := fun _ _ =>
          { name := "nullchecker", available := false,
            checkLinesFn := fun _ _ => .error "unavailable" } }
      { message_key := "spellcheck_request", correlation_id := some "cid-2",
        lines := ["wrld"], language := "en", engine := none } =
      { message_key := "spellcheck_response", success := true, errors := [],
        lines_checked := 1, engine_used := none,
        language_used := "en", correlation_id := some "cid-2" } :=
  C1_no_provider_success_response _ _ rfl rfl

/-! ## Claim C7 -/

theorem not_wordChar_of_whitespace {c : Char} (h : c.isWhitespace = true) :
    isWordChar c = false := by
  simp only [Char.isWhitespace, Bool.or_eq_true, decide_eq_true_eq] at h
  rcases h with ((h | h) | h) | h <;> subst h <;> decide

theorem asciiLowerChar_whitespace {c : Char} (h : c.isWhitespace = true) :
    asciiLowerChar c = c := by
  simp only [Char.isWhitespace, Bool.or_eq_true, decide_eq_true_eq] at h
  rcases h with ((h | h) | h) | h <;> subst h <;> decide

theorem strLower_of_whitespace {text : String} (h : pyStripEmpty text = true) :
    strLower text = text := by
  apply String.ext
  rw [strLower_data]
  have h2 : text.data.map asciiLowerChar = text.data.map id :=
    List.map_congr_left
      (fun c hc => asciiLowerChar_whitespace (List.all_eq_true.mp h c hc))
  rw [h2, List.map_id]

theorem wordRuns_nil_of_whitespace {text : String} (h : pyStripEmpty text = true) :
    wordRuns text = [] := by
  unfold wordRuns
  apply wordRunsGo_all_nonword
  intro c hc
  exact not_wordChar_of_whitespace (List.all_eq_true.mp h c hc)

theorem findWords_nil_of_whitespace {text : String} (h : pyStripEmpty text = true) :
    findWords text = [] := by
  unfold findWords
  rw [wordRuns_nil_of_whitespace h]
  rfl

theorem except_bind_ok {ε α β : Type} {x : Except ε α} {f : α → Except ε β} {b : β}
    (h : Except.bind x f = .ok b) : ∃ a, x = .ok a ∧ f a = .ok b := by
  cases x with
  | error e => cases h
  | ok a => exact ⟨a, rfl, h⟩

theorem except_map_ok {ε α β : Type} {x : Except ε α} {f : α → β} {b : β}
    (h : Except.map f x = .ok b) : ∃ a, x = .ok a ∧ f a = b := by
  cases x with
  | error e => cases h
  | ok a =>
    refine ⟨a, rfl, ?_⟩
    have hred : Except.map f (Except.ok a : Except ε α) = .ok (f a) := rfl
    rw [hred] at h
    cases h
    rfl

theorem except_ok_bind {ε α β : Type} (a : α) (f : α → Except ε β) :
    Except.bind (Except.ok a : Except ε α) f = f a := rfl

/-- Claim C7 counterexample: an unavailable provider's `check_text` raises
`SpellCheckerNotAvailableError` (the `.error` outcome) instead of
returning a zero-error `SpellCheckResult`. -/
theorem C7_counterexample :
    PySpellCheckerProvider.check_text
      { language := "en", available := false,
        engine := { unknown := fun _ => .ok [], candidates := fun _ => .ok [] },
        mkEngine := fun _ => .error "unsupported language" }
      "hello" none = .error "PySpellChecker is not available" := rfl

/-- Claim C7 (amended): `check_text` raises
`SpellCheckerNotAvailableError` when the provider is unavailable; when it
is available, exceptions from the per-call `SpellChecker(language=lang)`
re-initialization and from the engine's `unknown`/`candidates` calls
still propagate uncaught; whenever a result IS returned for empty or
whitespace-only text its error list is empty, and such a result is
returned whenever no re-initialization is needed and the engine's query
on the (empty) token list succeeds. -/
theorem C7_check_text_spec (p : PySpellCheckerProvider) (text : String)
    (language : Option String) :
    (p.available = false →
      p.check_text text language = .error (p.name ++ " is not available"))
    ∧ (∀ r, p.check_text text language = .ok r →
        pyStripEmpty text = true → r.errors = [])
    ∧ (p.available = true → language.getD p.language = p.language →
        pyStripEmpty text = true →
        ∀ mis, p.engine.unknown [] = .ok mis →
        p.check_text text language =
          .ok { original_text := text, errors := [], language := p.language,
                engine := p.name }) := by
  refine ⟨?_, ?_, ?_⟩
  · intro hav
    unfold PySpellCheckerProvider.check_text
    rw [hav]
    simp
  · intro r hok hws
    unfold PySpellCheckerProvider.check_text at hok
    cases hav : p.available with
    | false =>
      rw [hav] at hok
      simp at hok
    | true =>
      rw [hav] at hok
      simp only [Bool.not_true, Bool.false_eq_true, if_false] at hok
      rw [wordRuns_nil_of_whitespace hws] at hok
      obtain ⟨temp, -, hok2⟩ := except_bind_ok hok
      obtain ⟨mis, -, hok3⟩ := except_bind_ok hok2
      obtain ⟨errOpts, herrs, hok4⟩ := except_map_ok hok3
      have herrs0 : errOpts = [] := by
        have h0 : (Except.ok ([] : List (Option ProviderError))
            : Except String (List (Option ProviderError))) = .ok errOpts := herrs
        cases h0
        rfl
      subst herrs0
      rw [← hok4]
      rfl
  · intro hav hlang hws mis hmis
    unfold PySpellCheckerProvider.check_text
    rw [hav]
    simp only [Bool.not_true, Bool.false_eq_true, if_false]
    rw [hlang, if_pos rfl, except_ok_bind, strLower_of_whitespace hws,
      findWords_nil_of_whitespace hws, hmis, except_ok_bind,
      wordRuns_nil_of_whitespace hws]
    rfl

/-- Witness for C7's amended theorem: an available provider with the
request language equal to its own, on whitespace-only text and an engine
that answers the empty query, returns the empty-error result. -/
theorem C7_witness :
    PySpellCheckerProvider.check_text
      { language := "en", available := true,
        engine := { unknown := fun _ => .ok [], candidates := fun _ => .ok [] },
        mkEngine := fun _ => .error "unsupported language" }
      " " none
      = .ok { original_text := " ", errors := [], language := "en",
              engine := "PySpellChecker" } :=
  (C7_check_text_spec
    { language := "en", available := true,
      engine := { unknown := fun _ => .ok [], candidates := fun _ => .ok [] },
      mkEngine := fun _ => .error "unsupported language" }
    " " none).2.2 rfl rfl (by decide) [] rfl

/-! ## Claim C4 -/

/-- Claim C4 counterexample: with `w = "teh"`, a cache entry whose error
list references "Teh" does not contain the quoted lower-cased w as a
literal substring, so the claim requires it to be deleted — yet
`remove_word_from_dictionary` keeps it, because SQLite's LIKE comparison
is ASCII-case-insensitive and the entry therefore matches the pattern. -/
theorem C4_counterexample :
    strContains
      (errorsToJson [{ word := "Teh", start_pos := 0, end_pos := 3, suggestions := [] }])
      ("\"" ++ strLower "teh" ++ "\"") = false
    ∧ ({ line_hash := "h1", line_text := "Teh cat",
         errors := some [{ word := "Teh", start_pos := 0, end_pos := 3, suggestions := [] }],
         language := "en", last_used := 0 } : CacheEntry) ∈
      (remove_word_from_dictionary
        { spell_cache :=
            [{ line_hash := "h1", line_text := "Teh cat",
               errors := some [{ word := "Teh", start_pos := 0, end_pos := 3,
                                 suggestions := [] }],
               language := "en", last_used := 0 }],
          user_dictionary := ["teh"], settings := [], now := 1 }
        "teh").spell_cache := by
  constructor
  · decide
  · decide

/-- Claim C4 (amended): for every ASCII word w (where Python's
`str.lower()` and the embedding's folding agree),
`remove_word_from_dictionary(w)` deletes the lower-cased w from the user
dictionary if present, and deletes exactly those cache entries whose
`errors_json` does NOT match the SQLite LIKE pattern `%"w"%` — evaluated
with SQLite's semantics: ASCII-case-insensitive, `_` matching any single
character and `%` any run — plus entries with null error lists, leaving
LIKE-matching entries in place. -/
theorem C4_remove_word_spec (db : DBState) (word : String)
    (_hword : asciiOnly word) :
    (remove_word_from_dictionary db word).user_dictionary
      = db.user_dictionary.filter (fun x => x != strLower word)
    ∧ ∀ e, e ∈ (remove_word_from_dictionary db word).spell_cache ↔
        (e ∈ db.spell_cache ∧ likeQuotedWord e.errors (strLower word) = true) := by
  refine ⟨rfl, fun e => ?_⟩
  exact List.mem_filter

/-- Witness for C4's amended theorem at the word "teh". -/
theorem C4_witness :
    (remove_word_from_dictionary
      { spell_cache := [], user_dictionary := ["teh"], settings := [], now := 0 }
      "teh").user_dictionary
      = (["teh"].filter (fun x => x != strLower "teh")) :=
  (C4_remove_word_spec
    { spell_cache := [], user_dictionary := ["teh"], settings := [], now := 0 }
    "teh" (by decide)).1

/-! ## Claim C3 -/

theorem asciiClean_strLower {w : String} (h : asciiClean w) :
    asciiClean (strLower w) := by
  intro c hc
  rw [strLower_data] at hc
  rcases List.mem_map.mp hc with ⟨c0, hc0, rfl⟩
  obtain ⟨h1, h2, hq, hb⟩ := h c0 hc0
  by_cases hu : 65 ≤ c0.toNat ∧ c0.toNat ≤ 90
  · have hup := asciiLowerChar_upper hu.1 hu.2
    refine ⟨by omega, by omega, ?_, ?_⟩
    · intro habs
      rw [habs] at hup
      have h34 : ('"').toNat = 34 := by decide
      omega
    · intro habs
      rw [habs] at hup
      have h92 : ('\\').toNat = 92 := by decide
      omega
  · rw [asciiLowerChar_other hu]
    exact ⟨h1, h2, hq, hb⟩

theorem asciiClean_of_strLower {u v : String} (huv : strLower u = v)
    (hv : asciiClean v) : asciiClean u := by
  intro c hc
  have hmem : asciiLowerChar c ∈ v.data := by
    rw [← huv, strLower_data]
    exact List.mem_map_of_mem _ hc
  obtain ⟨h1, h2, hq, hb⟩ := hv _ hmem
  by_cases hu : 65 ≤ c.toNat ∧ c.toNat ≤ 90
  · refine ⟨by omega, by omega, ?_, ?_⟩
    · intro habs
      rw [habs] at hu
      exact absurd hu (by decide)
    · intro habs
      rw [habs] at hu
      exact absurd hu (by decide)
  · have heq := asciiLowerChar_other hu
    rw [heq] at h1 h2 hq hb
    exact ⟨h1, h2, hq, hb⟩

/-- If some stored error's word lower-cases to `w` (`w` printable-ASCII,
free of JSON escapes), the serialized error list LIKE-matches the quoted
`w`. -/
theorem likeQuoted_of_errWord {es : List SpellError} {err : SpellError} {w : String}
    (he : err ∈ es) (hw : strLower err.word = w) (hclean : asciiClean w) :
    likeContains (errorsToJson es) ("\"" ++ w ++ "\"") = true := by
  have hclean' : asciiClean err.word := asciiClean_of_strLower hw hclean
  have hjs : jsonStr err.word = "\"" ++ err.word ++ "\"" := by
    unfold jsonStr
    rw [jsonEscape_of_clean hclean']
  have hinf := jsonStr_infix_errorsToJson he
  rw [hjs] at hinf
  have hmap := List.IsInfix.map asciiLowerChar hinf
  have hwdata : w.data = err.word.data.map asciiLowerChar := by
    rw [← hw, strLower_data]
  have hfold : w.data.map asciiLowerChar = w.data := by
    rw [hwdata, List.map_map]
    exact List.map_congr_left (fun c _ => asciiLowerChar_idem c)
  have hL : ("\"" ++ w ++ "\"").data.map asciiLowerChar
      = ("\"" ++ err.word ++ "\"").data.map asciiLowerChar := by
    simp only [String.data_append, List.map_append]
    rw [hfold, hwdata]
  apply likeContains_of_fold_infix
  rw [hL]
  exact hmap

/-- After the custom dictionary holds `w` (lower-cased, printable-ASCII,
escape-free) and no cache row LIKE-matches the quoted `w`,
`spell_check_line` reports no error whose word lower-cases to `w`. -/
theorem spell_check_line_no_dict_word (eng : WordEngine) (line lang : String)
    (db : DBState) (w : String)
    (hw : w ∈ db.user_dictionary) (hfold : strLower w = w)
    (hcache : ∀ e ∈ db.spell_cache, likeQuotedWord e.errors w = false)
    (hclean : asciiClean w) :
    ∀ err ∈ (spell_check_line eng line lang db).1, strLower err.word ≠ w := by
  intro err herr habs
  simp only [spell_check_line] at herr
  split at herr
  · simp at herr
  · cases hlook : lookupCache db (cacheKey line (engineSetting db)) with
    | some entry =>
      rw [hlook] at herr
      have herr2 : err ∈ entry.errors.getD [] := herr
      have hent : entry ∈ db.spell_cache := List.mem_of_find?_eq_some hlook
      have hlike := hcache entry hent
      cases herrs : entry.errors with
      | none => rw [herrs] at herr2; cases herr2
      | some es =>
        rw [herrs] at herr2
        simp only [Option.getD_some] at herr2
        have hq := likeQuoted_of_errWord herr2 habs hclean
        rw [herrs] at hlike
        simp only [likeQuotedWord] at hlike
        rw [hq] at hlike
        cases hlike
    | none =>
      rw [hlook] at herr
      have hsound := (checkWordsGo_sound eng (db.user_dictionary.map strLower)
        line (findWords line) 0 err herr).2.1
      rw [habs] at hsound
      have hmem : w ∈ db.user_dictionary.map strLower :=
        List.mem_map.mpr ⟨w, hw, hfold⟩
      have hcon : (db.user_dictionary.map strLower).contains w = true :=
        List.elem_iff.mpr hmem
      rw [hcon] at hsound
      cases hsound

theorem spell_check_line_blank {eng : WordEngine} {line lang : String}
    {db : DBState} (h : pyStripEmpty line = true) :
    spell_check_line eng line lang db = ([], db, 0) := by
  simp [spell_check_line, h]

theorem spell_check_line_hit {eng : WordEngine} {line lang : String}
    {db : DBState} {entry : CacheEntry} (h : pyStripEmpty line = false)
    (hlook : lookupCache db (cacheKey line (engineSetting db)) = some entry) :
    spell_check_line eng line lang db =
      (entry.errors.getD [], touchCache db (cacheKey line (engineSetting db)), 0) := by
  simp [spell_check_line, h, hlook]

theorem spell_check_line_miss {eng : WordEngine} {line lang : String}
    {db : DBState} (h : pyStripEmpty line = false)
    (hlook : lookupCache db (cacheKey line (engineSetting db)) = none) :
    spell_check_line eng line lang db =
      ((checkWordsGo eng (db.user_dictionary.map strLower) line (findWords line) 0).1,
       storeCache db (cacheKey line (engineSetting db)) line
         (checkWordsGo eng (db.user_dictionary.map strLower) line (findWords line) 0).1 lang,
       (checkWordsGo eng (db.user_dictionary.map strLower) line (findWords line) 0).2) := by
  simp [spell_check_line, h, hlook]

theorem engineSetting_touchCache (db : DBState) (lh : String) :
    engineSetting (touchCache db lh) = engineSetting db := rfl

theorem engineSetting_storeCache (db : DBState) (lh t : String)
    (errs : List SpellError) (lang : String) :
    engineSetting (storeCache db lh t errs lang) = engineSetting db := rfl

theorem lookupCache_touchCache (db : DBState) (lh' lh : String) :
    lookupCache (touchCache db lh') lh =
      (lookupCache db lh).map
        (fun e => if e.line_hash == lh' then { e with last_used := db.now } else e) := by
  unfold lookupCache touchCache
  rw [List.find?_map]
  have hp : ((fun e : CacheEntry => e.line_hash == lh) ∘
      (fun e => if e.line_hash == lh' then { e with last_used := db.now } else e))
      = fun e : CacheEntry => e.line_hash == lh := by
    funext e
    show ((if e.line_hash == lh' then { e with last_used := db.now } else e).line_hash
      == lh) = (e.line_hash == lh)
    by_cases h : (e.line_hash == lh') = true
    · rw [if_pos h]
    · rw [if_neg h]
  rw [hp]

theorem lookupCache_storeCache_self (db : DBState) (lh t : String)
    (errs : List SpellError) (lang : String) :
    lookupCache (storeCache db lh t errs lang) lh =
      some { line_hash := lh, line_text := t, errors := some errs,
             language := lang, last_used := db.now } := by
  unfold lookupCache storeCache
  rw [List.find?_append]
  have h1 : (db.spell_cache.filter (fun e => e.line_hash != lh)).find?
      (fun e => e.line_hash == lh) = none := by
    rw [List.find?_eq_none]
    intro e he
    have h2 := (List.mem_filter.mp he).2
    simpa using h2
  rw [h1]
  simp [List.find?]

theorem touchCache_entry_fields (db : DBState) (lh : String) :
    ∀ e2 ∈ (touchCache db lh).spell_cache, ∃ e1 ∈ db.spell_cache,
      e2.line_hash = e1.line_hash ∧ e2.line_text = e1.line_text
      ∧ e2.errors = e1.errors ∧ e2.language = e1.language := by
  intro e2 he2
  simp only [touchCache] at he2
  rcases List.mem_map.mp he2 with ⟨e1, he1, rfl⟩
  refine ⟨e1, he1, ?_⟩
  by_cases h : (e1.line_hash == lh) = true
  · rw [if_pos h]; exact ⟨rfl, rfl, rfl, rfl⟩
  · rw [if_neg h]; exact ⟨rfl, rfl, rfl, rfl⟩

theorem touched_entry_errors (e : CacheEntry) (lh : String) (now : Nat) :
    ((if e.line_hash == lh then { e with last_used := now } else e) : CacheEntry).errors
      = e.errors := by
  by_cases h : (e.line_hash == lh) = true
  · rw [if_pos h]
  · rw [if_neg h]

/-! ## Claim C5 -/

/-- Claim C5: with the engine setting and user dictionary unchanged
between the calls (nothing in `spell_check_line` changes them), checking
the same line twice returns equal error lists; the second call performs
zero per-word engine invocations; for a non-blank line the second call
finds a cache entry and only applies the `last_used` touch to the state;
and every cache entry after the second call agrees with an entry after
the first call on everything except possibly `last_used`. -/
theorem C5_cache_idempotent (eng : WordEngine) (line lang : String) (db : DBState) :
    ((spell_check_line eng line lang (spell_check_line eng line lang db).2.1).1
      = (spell_check_line eng line lang db).1)
    ∧ ((spell_check_line eng line lang (spell_check_line eng line lang db).2.1).2.2 = 0)
    ∧ (pyStripEmpty line = false →
        (lookupCache (spell_check_line eng line lang db).2.1
          (cacheKey line (engineSetting db))).isSome = true
        ∧ (spell_check_line eng line lang (spell_check_line eng line lang db).2.1).2.1
          = touchCache (spell_check_line eng line lang db).2.1
              (cacheKey line (engineSetting db)))
    ∧ (∀ e2 ∈ (spell_check_line eng line lang
          (spell_check_line eng line lang db).2.1).2.1.spell_cache,
        ∃ e1 ∈ (spell_check_line eng line lang db).2.1.spell_cache,
          e2.line_hash = e1.line_hash ∧ e2.line_text = e1.line_text
          ∧ e2.errors = e1.errors ∧ e2.language = e1.language) := by
  by_cases hblank : pyStripEmpty line = true
  · rw [spell_check_line_blank hblank]
    rw [spell_check_line_blank hblank]
    refine ⟨rfl, rfl, ?_, ?_⟩
    · intro hfalse; rw [hblank] at hfalse; cases hfalse
    · intro e2 he2; exact ⟨e2, he2, rfl, rfl, rfl, rfl⟩
  · have hb : pyStripEmpty line = false := by
      cases h : pyStripEmpty line
      · rfl
      · exact absurd h hblank
    cases hlook : lookupCache db (cacheKey line (engineSetting db)) with
    | some entry =>
      rw [spell_check_line_hit hb hlook]
      have hE : engineSetting (touchCache db (cacheKey line (engineSetting db)))
          = engineSetting db := rfl
      have hlook2 : lookupCache (touchCache db (cacheKey line (engineSetting db)))
          (cacheKey line (engineSetting db))
          = some (if entry.line_hash == cacheKey line (engineSetting db) then
              { entry with last_used := db.now } else entry) := by
        rw [lookupCache_touchCache, hlook]
        rfl
      have hsecond := @spell_check_line_hit eng line lang
        (touchCache db (cacheKey line (engineSetting db))) _ hb
        (by rw [hE]; exact hlook2)
      rw [hE] at hsecond
      rw [hsecond]
      refine ⟨?_, rfl, ?_, ?_⟩
      · simp only [touched_entry_errors]
      · intro _
        refine ⟨?_, rfl⟩
        show (lookupCache (touchCache db (cacheKey line (engineSetting db)))
          (cacheKey line (engineSetting db))).isSome = true
        rw [hlook2]
        rfl
      · intro e2 he2
        exact touchCache_entry_fields _ _ e2 he2
    | none =>
      rw [spell_check_line_miss hb hlook]
      have hE : engineSetting (storeCache db (cacheKey line (engineSetting db)) line
          (checkWordsGo eng (db.user_dictionary.map strLower) line (findWords line) 0).1
          lang) = engineSetting db := rfl
      have hlook2 := lookupCache_storeCache_self db (cacheKey line (engineSetting db))
        line (checkWordsGo eng (db.user_dictionary.map strLower) line (findWords line) 0).1
        lang
      have hsecond := @spell_check_line_hit eng line lang
        (storeCache db (cacheKey line (engineSetting db)) line
          (checkWordsGo eng (db.user_dictionary.map strLower) line (findWords line) 0).1
          lang) _ hb
        (by rw [hE]; exact hlook2)
      rw [hE] at hsecond
      rw [hsecond]
      refine ⟨rfl, rfl, ?_, ?_⟩
      · intro _
        refine ⟨?_, rfl⟩
        show (lookupCache (storeCache db (cacheKey line (engineSetting db)) line
          (checkWordsGo eng (db.user_dictionary.map strLower) line (findWords line) 0).1
          lang) (cacheKey line (engineSetting db))).isSome = true
        rw [hlook2]
        rfl
      · intro e2 he2
        exact touchCache_entry_fields _ _ e2 he2

/-- Witness for C5 at a concrete line, engine and empty state. -/
theorem C5_witness :
    ((spell_check_line { isCorrect := fun _ => false, suggest := fun _ => [] }
        "helo" "en"
        (spell_check_line { isCorrect := fun _ => false, suggest := fun _ => [] }
          "helo" "en"
          { spell_cache := [], user_dictionary := [], settings := [], now := 0 }).2.1).1
      = (spell_check_line { isCorrect := fun _ => false, suggest := fun _ => [] }
          "helo" "en"
          { spell_cache := [], user_dictionary := [], settings := [], now := 0 }).1)
    ∧ ((spell_check_line { isCorrect := fun _ => false, suggest := fun _ => [] }
        "helo" "en"
        (spell_check_line { isCorrect := fun _ => false, suggest := fun _ => [] }
          "helo" "en"
          { spell_cache := [], user_dictionary := [], settings := [], now := 0 }).2.1).2.2
      = 0)
    ∧ (lookupCache
        (spell_check_line { isCorrect := fun _ => false, suggest := fun _ => [] }
          "helo" "en"
          { spell_cache := [], user_dictionary := [], settings := [], now := 0 }).2.1
        (cacheKey "helo"
          (engineSetting
            { spell_cache := [], user_dictionary := [], settings := [], now := 0 }))).isSome
      = true := by
  have h := C5_cache_idempotent { isCorrect := fun _ => false, suggest := fun _ => [] }
    "helo" "en" { spell_cache := [], user_dictionary := [], settings := [], now := 0 }
  exact ⟨h.1, h.2.1, (h.2.2.1 (by decide)).1⟩

/-! ## Claim C6 -/

/-- Claim C6: the cache fingerprint is the hash of the line text
concatenated with `"_"` and the engine name; for the same line, two
different engine names give distinct cache keys (the SHA-256 digest is
modelled as an injective fingerprint), and a check never touches an entry
keyed under any other fingerprint, so checks under different engines
never share a cache entry; and an update naming the
`spell_checker_engine` setting deletes every entry of the spell cache. -/
theorem C6_engine_fingerprint_separation :
    (∀ line engine, cacheKey line engine = hash_line (line ++ "_" ++ engine))
    ∧ (∀ (line e1 e2 : String), e1 ≠ e2 → cacheKey line e1 ≠ cacheKey line e2)
    ∧ (∀ (eng : WordEngine) (line lang : String) (db : DBState), ∀ e ∈ db.spell_cache,
        e.line_hash ≠ cacheKey line (engineSetting db) →
        e ∈ (spell_check_line eng line lang db).2.1.spell_cache)
    ∧ (∀ (db : DBState) (updates : List (String × String)),
        (∃ v, ("spell_checker_engine", v) ∈ updates) →
        (update_settings db updates).spell_cache = []) := by
  refine ⟨fun _ _ => rfl, ?_, ?_, ?_⟩
  · intro line e1 e2 hne habs
    have hd := congrArg String.data habs
    rw [show cacheKey line e1 = (line ++ "_") ++ e1 from rfl,
      show cacheKey line e2 = (line ++ "_") ++ e2 from rfl,
      String.data_append, String.data_append] at hd
    exact hne (String.ext (List.append_cancel_left hd))
  · intro eng line lang db e he hkey
    by_cases hblank : pyStripEmpty line = true
    · rw [spell_check_line_blank hblank]
      exact he
    · have hb : pyStripEmpty line = false := by
        cases h : pyStripEmpty line
        · rfl
        · exact absurd h hblank
      have hbe : (e.line_hash == cacheKey line (engineSetting db)) = false := by
        cases h : e.line_hash == cacheKey line (engineSetting db)
        · rfl
        · exact absurd (by simpa using h) hkey
      cases hlook : lookupCache db (cacheKey line (engineSetting db)) with
      | some entry =>
        rw [spell_check_line_hit hb hlook]
        show e ∈ (touchCache db (cacheKey line (engineSetting db))).spell_cache
        simp only [touchCache]
        refine List.mem_map.mpr ⟨e, he, ?_⟩
        rw [if_neg (by rw [hbe]; exact Bool.false_ne_true)]
      | none =>
        rw [spell_check_line_miss hb hlook]
        show e ∈ (storeCache db (cacheKey line (engineSetting db)) line _ lang).spell_cache
        simp only [storeCache]
        refine List.mem_append_left _ (List.mem_filter.mpr ⟨he, ?_⟩)
        simp [bne, hbe]
  · intro db updates hv
    rcases hv with ⟨v, hv⟩
    have hany : updates.any (fun p => p.1 == "spell_checker_engine") = true :=
      List.any_eq_true.mpr ⟨("spell_checker_engine", v), hv, by simp⟩
    simp only [update_settings, hany, if_true]

/-- Witness for C6: distinct engine names yield distinct keys, and an
engine update clears a non-empty cache. -/
theorem C6_witness :
    (cacheKey "hello" "pyspellchecker" ≠ cacheKey "hello" "hunspell")
    ∧ (update_settings
        { spell_cache := [{ line_hash := "k", line_text := "t", errors := none,
                            language := "en", last_used := 0 }],
          user_dictionary := [], settings := [], now := 0 }
        [("spell_checker_engine", "hunspell")]).spell_cache = [] := by
  refine ⟨C6_engine_fingerprint_separation.2.1 "hello" _ _ (by decide), ?_⟩
  exact C6_engine_fingerprint_separation.2.2.2 _ _ ⟨"hunspell", by simp⟩

/-! ## Claim C9 -/

theorem checkWordsGo_valid (eng : WordEngine) (custom : List String)
    (line : String) (err : SpellError)
    (herr : err ∈ (checkWordsGo eng custom line (findWords line) 0).1) :
    errValidFor line err := by
  obtain ⟨hmem, -, hend, hsw⟩ :=
    checkWordsGo_sound eng custom line (findWords line) 0 err herr
  have hlen : 1 ≤ err.word.length := findWords_token_len hmem
  have hle : err.word.data.length ≤ (line.data.drop err.start_pos).length :=
    charsStartWith_length hsw
  rw [List.length_drop] at hle
  have hwl : err.word.data.length = err.word.length := rfl
  refine ⟨by omega, by rw [hend]; show _ ≤ line.data.length; omega, ?_⟩
  unfold pySlice
  apply String.ext
  show (line.data.drop err.start_pos).take (err.end_pos - err.start_pos) = err.word.data
  rw [hend, Nat.add_sub_cancel_left]
  have := charsStartWith_take hsw
  rwa [hwl] at this

theorem CacheOK_touchCache {db : DBState} (lh : String) (hok : CacheOK db) :
    CacheOK (touchCache db lh) := by
  intro e2 he2
  rcases touchCache_entry_fields db lh e2 he2 with ⟨e1, he1, hh, ht, herr, -⟩
  have h1 := hok e1 he1
  constructor
  · show e2.line_hash = cacheKey e2.line_text (engineSetting db)
    rw [hh, ht]
    exact h1.1
  · intro es hes err hmem
    rw [ht]
    exact h1.2 es (by rw [← herr]; exact hes) err hmem

/-- Claim C9: assuming the cache is in a program-reachable shape
(`CacheOK`), every error returned by `spell_check_line` satisfies
`start_pos < end_pos ≤ len(line)` (with `start_pos ≥ 0` by the Nat
domain) and the slice `line[start_pos:end_pos]` equals the error's word;
moreover the resulting state is again `CacheOK`, so the hypothesis is
self-sustaining. -/
theorem C9_position_invariants (eng : WordEngine) (line lang : String)
    (db : DBState) (hok : CacheOK db) :
    (∀ err ∈ (spell_check_line eng line lang db).1,
      err.start_pos < err.end_pos ∧ err.end_pos ≤ line.length ∧
      pySlice line err.start_pos err.end_pos = err.word)
    ∧ CacheOK (spell_check_line eng line lang db).2.1 := by
  by_cases hblank : pyStripEmpty line = true
  · rw [spell_check_line_blank hblank]
    exact ⟨fun err herr => absurd herr (List.not_mem_nil err), hok⟩
  · have hb : pyStripEmpty line = false := by
      cases h : pyStripEmpty line
      · rfl
      · exact absurd h hblank
    cases hlook : lookupCache db (cacheKey line (engineSetting db)) with
    | some entry =>
      rw [spell_check_line_hit hb hlook]
      have hent : entry ∈ db.spell_cache := List.mem_of_find?_eq_some hlook
      have hpe : (entry.line_hash == cacheKey line (engineSetting db)) = true := by
        have h := hlook
        unfold lookupCache at h
        have h2 := List.find?_some h
        exact h2
      have hkey : entry.line_hash = cacheKey line (engineSetting db) := by
        simpa using hpe
      have hok1 := hok entry hent
      have hline : entry.line_text = line := by
        have h2 : cacheKey entry.line_text (engineSetting db)
            = cacheKey line (engineSetting db) := by
          rw [← hok1.1, hkey]
        have hd := congrArg String.data h2
        rw [show cacheKey entry.line_text (engineSetting db)
            = (entry.line_text ++ "_" ++ engineSetting db) from rfl,
          show cacheKey line (engineSetting db)
            = (line ++ "_" ++ engineSetting db) from rfl,
          String.data_append, String.data_append] at hd
        exact String.ext (List.append_cancel_right (List.append_cancel_right hd))
      constructor
      · intro err herr
        cases herrs : entry.errors with
        | none =>
          rw [herrs] at herr
          cases herr
        | some es =>
          rw [herrs] at herr
          simp only [Option.getD_some] at herr
          have hv := hok1.2 es herrs err herr
          rw [hline] at hv
          exact hv
      · exact CacheOK_touchCache _ hok
    | none =>
      rw [spell_check_line_miss hb hlook]
      have hvalid : ∀ err ∈ (checkWordsGo eng (db.user_dictionary.map strLower)
          line (findWords line) 0).1, errValidFor line err :=
        fun err herr => checkWordsGo_valid eng _ line err herr
      constructor
      · exact fun err herr => hvalid err herr
      · intro e2 he2
        simp only [storeCache] at he2
        rcases List.mem_append.mp he2 with hfil | hnew
        · have he1 := (List.mem_filter.mp hfil).1
          exact hok e2 he1
        · rcases List.mem_singleton.mp hnew with rfl
          exact ⟨rfl, by
            intro es hes err hmem
            cases hes
            exact hvalid err hmem⟩

/-- Witness for C9: the single error reported for "helo" under an
always-wrong engine and an empty state satisfies the position invariant. -/
theorem C9_witness :
    ({ word := "helo", start_pos := 0, end_pos := 4, suggestions := [] }
        : SpellError).start_pos
      < ({ word := "helo", start_pos := 0, end_pos := 4, suggestions := [] }
        : SpellError).end_pos
    ∧ ({ word := "helo", start_pos := 0, end_pos := 4, suggestions := [] }
        : SpellError).end_pos ≤ "helo".length
    ∧ pySlice "helo"
        ({ word := "helo", start_pos := 0, end_pos := 4, suggestions := [] }
          : SpellError).start_pos
        ({ word := "helo", start_pos := 0, end_pos := 4, suggestions := [] }
          : SpellError).end_pos
      = ({ word := "helo", start_pos := 0, end_pos := 4, suggestions := [] }
        : SpellError).word :=
  (C9_position_invariants { isCorrect := fun _ => false, suggest := fun _ => [] }
    "helo" "en" { spell_cache := [], user_dictionary := [], settings := [], now := 0 }
    (fun e he => absurd he (List.not_mem_nil e))).1
    { word := "helo", start_pos := 0, end_pos := 4, suggestions := [] } (by decide)

end SpellcheckPoc
